import Mathlib

/-!
Verification of the Upbit listing monitor (`main.py`) against its
natural-language specification.

The program is a single-threaded polling loop.  We embed it shallowly:

* a fetched market list is a `Finset String` (the code builds a Python
  `set` of market symbols); a fetch outcome is `Option (Finset String)`
  (`None, 0` on failure in the code);
* Python truthiness on a fetch result (`if not new_markets_set`) is
  failure exactly when the result is `none` or the empty set;
* network and clock effects are oracles passed in as functions
  (per-attempt delivery outcomes, per-iteration fetch results);
* outbound Telegram messages are an inductive `Msg`, keeping the data
  each message carries (ticker names, counts, truncated error text) and
  dropping pure presentation (timestamps, latency figures).
-/

namespace UpbitMonitor

/-- Messages the program pushes to Telegram, one constructor per
`send_telegram_message` call site in `main.py`. -/
inductive Msg where
  /-- Startup failure alert: initial market list unavailable (line 166). -/
  | startupFailure : Msg
  /-- Startup banner with the number of tracked pairs (lines 172-176). -/
  | startupOk (count : Nat) : Msg
  /-- Escalation alert carrying the consecutive-error count (line 191). -/
  | escalation (n : Nat) : Msg
  /-- Single new-listing alert naming the one added ticker (lines 217-223). -/
  | newSingle (ticker : String) : Msg
  /-- Batched new-listings alert with the sorted tickers (lines 225-232). -/
  | newBatch (tickers : List String) : Msg
  /-- Manual-stop notice on KeyboardInterrupt (line 247). -/
  | stoppedManually : Msg
  /-- Crash alert with the truncated error text (line 250). -/
  | crashAlert (text : String) : Msg
deriving DecidableEq, Repr

/-- `MAX_RETRIES = 3` (line 41). -/
def MAX_RETRIES : Nat := 3

/-- `max_consecutive_errors = 10` (line 179). -/
def max_consecutive_errors : Nat := 10

/-- The loop's mutable state: `current_markets_set` and
`consecutive_errors` in `monitor_upbit_listings`. -/
structure MonitorState where
  current : Finset String
  errors : Nat
deriving DecidableEq

/-- Python truthiness of a fetch result: `None` and the empty set are
falsy, a non-empty set is truthy. -/
def truthy (r : Option (Finset String)) : Bool :=
  match r with
  | none => false
  | some s => s ≠ ∅

/-- `new_listings = new_markets_set - current_markets_set` (line 206). -/
def new_listings (current fetched : Finset String) : Finset String :=
  fetched \ current

/-- `delisted_pairs = current_markets_set - new_markets_set` (line 207). -/
def delisted_pairs (current fetched : Finset String) : Finset String :=
  current \ fetched

/-- The notifications built from a non-empty `new_listings` set
(lines 210-232): one single-pair message when exactly one ticker was
added (the unique element, so the arbitrary `list(...)[0]` pick is
order-independent), otherwise one batched message listing the added
tickers sorted.  Empty `added` sends nothing. -/
def listingMsgs (added : Finset String) : List Msg :=
  if added = ∅ then []
  else if added.card = 1 then
    [Msg.newSingle ((added.sort (· ≤ ·)).headD "")]
  else
    [Msg.newBatch (added.sort (· ≤ ·))]

/-- The failure branch of the loop body (lines 186-197):
increment `consecutive_errors`; once it reaches
`max_consecutive_errors`, send one escalation alert and reset the
counter; `current_markets_set` is untouched. -/
def loopStepFail (st : MonitorState) : MonitorState × List Msg :=
  let e := st.errors + 1
  if max_consecutive_errors ≤ e then
    (⟨st.current, 0⟩, [Msg.escalation e])
  else
    (⟨st.current, e⟩, [])

/-- The success branch of the loop body (lines 199-241), for a truthy
fetched set `s`: reset the error counter; if `s` differs from the
current set, send the listing notifications for `added` (delistings are
only logged) and replace the current set with `s`. -/
def loopStepOk (st : MonitorState) (s : Finset String) : MonitorState × List Msg :=
  if s ≠ st.current then
    (⟨s, 0⟩, listingMsgs (new_listings st.current s))
  else
    (⟨st.current, 0⟩, [])

/-- One iteration of the `while True` body (lines 182-243) on fetch
result `fetched`, returning the next state and the messages sent.
`if not new_markets_set` routes `none` and the empty set to the failure
branch. -/
def loopStep (st : MonitorState) (fetched : Option (Finset String)) :
    MonitorState × List Msg :=
  match fetched with
  | none => loopStepFail st
  | some s => if s = ∅ then loopStepFail st else loopStepOk st s

/-- A finite prefix of the Running loop: fold `loopStep` over a list of
fetch results, accumulating the messages sent. -/
def runLoop (st : MonitorState) : List (Option (Finset String)) →
    MonitorState × List Msg
  | [] => (st, [])
  | f :: fs =>
    let step := loopStep st f
    let rest := runLoop step.1 fs
    (rest.1, step.2 ++ rest.2)

/-- The last truthy fetch result in a list of fetch outcomes, if any. -/
def lastSuccess : List (Option (Finset String)) → Option (Finset String)
  | [] => none
  | f :: fs =>
    match lastSuccess fs with
    | some s => some s
    | none =>
      match f with
      | some s => if s = ∅ then none else some s
      | none => none

/-! ## `send_telegram_message` (lines 58-96)

The delivery oracle `ok chat i` tells whether the `i`-th POST attempt
for recipient `chat` would return HTTP 200.  `tryDeliver` models the
inner `for attempt in range(retries)` loop for one recipient: it stops
at the first success and reports whether delivery succeeded together
with the number of attempts actually made. -/

/-- Inner retry loop for one recipient, starting at attempt index `i`
with `fuel` attempts left: returns (delivered, attempts made). -/
def tryDeliverAux (ok : Nat → Bool) (i : Nat) : Nat → Bool × Nat
  | 0 => (false, 0)
  | fuel + 1 =>
    if ok i then (true, 1)
    else
      let rest := tryDeliverAux ok (i + 1) fuel
      (rest.1, rest.2 + 1)

/-- `for attempt in range(retries)` for one recipient (lines 77-90). -/
def tryDeliver (ok : Nat → Bool) (retries : Nat) : Bool × Nat :=
  tryDeliverAux ok 0 retries

/-- `send_telegram_message` over the recipient list (lines 69-96):
processes every recipient in order (no early abort), returns
`all_successful` — true only when every recipient was delivered to —
together with the per-recipient attempt counts. -/
def send_telegram_message (ok : String → Nat → Bool)
    (recipients : List String) (retries : Nat) :
    Bool × List (String × Nat) :=
  match recipients with
  | [] => (true, [])
  | c :: cs =>
    let this := tryDeliver (ok c) retries
    let rest := send_telegram_message ok cs retries
    (this.1 && rest.1, (c, this.2) :: rest.2)

/-! ## Bootstrapping (`wait_for_initial_markets`, lines 135-153, and the
head of `monitor_upbit_listings`, lines 160-176) -/

/-- The attempt loop of `wait_for_initial_markets`: attempt index `i`,
`fuel` attempts left; a fetch result passes the `if markets:` gate only
when truthy (non-`none` and non-empty). -/
def waitAux (fetch : Nat → Option (Finset String)) (i : Nat) :
    Nat → Option (Finset String)
  | 0 => none
  | fuel + 1 =>
    match fetch i with
    | some s => if s = ∅ then waitAux fetch (i + 1) fuel else some s
    | none => waitAux fetch (i + 1) fuel

/-- `wait_for_initial_markets` (lines 135-153): up to `MAX_RETRIES`
fetch attempts, returning the first truthy result, else `none`. -/
def wait_for_initial_markets (fetch : Nat → Option (Finset String)) :
    Option (Finset String) :=
  waitAux fetch 0 MAX_RETRIES

/-- The bootstrapping phase of `monitor_upbit_listings`
(lines 163-176): on `if not current_markets_set` send exactly one
startup-failure alert and return without entering the loop; otherwise
send the startup banner and enter the loop with the fetched set. -/
def bootstrap (fetch : Nat → Option (Finset String)) :
    Option (Finset String) × List Msg :=
  match wait_for_initial_markets fetch with
  | none => (none, [Msg.startupFailure])
  | some s =>
    if s = ∅ then (none, [Msg.startupFailure])
    else (some s, [Msg.startupOk s.card])

/-! ## Whole-process model (exit paths, session lifetime, exit code) -/

/-- How the infinite `while True` loop was left: by KeyboardInterrupt
(line 245) or by an unexpected exception with message `err`
(line 248). -/
inductive LoopEnd where
  | interrupted : LoopEnd
  | crashed (err : String) : LoopEnd
deriving DecidableEq, Repr

/-- `str(e)[:200]` (line 250). -/
def truncate200 (e : String) : String := e.take 200

/-- Observable outcome of one process run: the Telegram messages sent,
how many times `session.close()` ran, and the process exit status. -/
structure RunResult where
  msgs : List Msg
  sessionCloses : Nat
  exitCode : Nat
deriving DecidableEq, Repr

/-- Python truthiness of an optional environment string: unset or empty
is falsy (line 18). -/
def truthyStr (r : Option String) : Bool :=
  match r with
  | none => false
  | some s => s ≠ ""

/-- Python `str.split(',')` on the character list: splits at every
comma, keeping empty segments (so `"".split(',') = [""]`). -/
def splitCommaAux : List Char → List Char → List (List Char)
  | [], acc => [acc.reverse]
  | c :: cs, acc =>
    if c = ',' then acc.reverse :: splitCommaAux cs []
    else splitCommaAux cs (c :: acc)

/-- Python `str.strip()`: drop leading and trailing whitespace. -/
def pyStrip (cs : List Char) : List Char :=
  ((cs.dropWhile Char.isWhitespace).reverse.dropWhile
    Char.isWhitespace).reverse

/-- `[chat_id.strip() for chat_id in TELEGRAM_CHAT_ID_STRING.split(',')]`
with the `all(TELEGRAM_CHAT_IDS)` validation (lines 26-28): `none` when
some stripped id is empty (the `ValueError` path, exit 1). -/
def parseChatIds (s : String) : Option (List String) :=
  let ids := (splitCommaAux s.toList []).map
    (fun cs => String.mk (pyStrip cs))
  if ids.all (· ≠ "") then some ids else none

/-- The module-level configuration check (lines 18-33): `some 1` when
the process exits with status 1 before the monitor starts, `none` when
configuration is accepted. -/
def configExit (token chatIdString : Option String) : Option Nat :=
  if !truthyStr token || !truthyStr chatIdString then some 1
  else
    match chatIdString with
    | none => some 1
    | some s => if (parseChatIds s).isSome then none else some 1

/-- `monitor_upbit_listings` (lines 156-252) as observed from outside,
with the loop's lifetime cut at `loopEnd` after the fetch results
`loopFetches`.  On bootstrapping failure the function returns at
line 169, *before* the `try/finally` of lines 181-252, so
`session.close()` never runs on that path.  Both the interrupt and the
crash handler swallow their exception, close the session in `finally`,
and let the function return normally. -/
def monitor_upbit_listings (fetch : Nat → Option (Finset String))
    (loopFetches : List (Option (Finset String))) (loopEnd : LoopEnd) :
    List Msg × Nat :=
  match bootstrap fetch with
  | (none, ms) => (ms, 0)
  | (some s, ms) =>
    let loopMs := (runLoop ⟨s, 0⟩ loopFetches).2
    let endMs :=
      match loopEnd with
      | LoopEnd.interrupted => [Msg.stoppedManually]
      | LoopEnd.crashed e => [Msg.crashAlert (truncate200 e)]
    (ms ++ loopMs ++ endMs, 1)

/-- The whole process (module body plus `monitor_upbit_listings`):
configuration failure exits with the configured status before the
session exists; otherwise the monitor runs and the script falls off the
end of `__main__`, so the interpreter exits with status 0. -/
def processRun (token chatIdString : Option String)
    (fetch : Nat → Option (Finset String))
    (loopFetches : List (Option (Finset String))) (loopEnd : LoopEnd) :
    RunResult :=
  match configExit token chatIdString with
  | some c => ⟨[], 0, c⟩
  | none =>
    let r := monitor_upbit_listings fetch loopFetches loopEnd
    ⟨r.1, r.2, 0⟩

end UpbitMonitor

namespace UpbitMonitor

/-! ## Helper lemmas -/

theorem loopStepFail_current (st : MonitorState) :
    (loopStepFail st).1.current = st.current := by
  by_cases h : max_consecutive_errors ≤ st.errors + 1 <;>
    simp [loopStepFail, h]

theorem loopStep_success_state (st : MonitorState) (s : Finset String)
    (h : s ≠ ∅) : (loopStep st (some s)).1 = ⟨s, 0⟩ := by
  simp only [loopStep]
  rw [if_neg h]
  unfold loopStepOk
  by_cases hc : s = st.current
  · rw [if_neg (by simpa using hc)]
    simp [hc]
  · rw [if_pos hc]

theorem runLoop_cons (st : MonitorState) (f : Option (Finset String))
    (fs : List (Option (Finset String))) :
    runLoop st (f :: fs) =
      ((runLoop (loopStep st f).1 fs).1,
        (loopStep st f).2 ++ (runLoop (loopStep st f).1 fs).2) := rfl

theorem runLoop_append (st : MonitorState)
    (xs ys : List (Option (Finset String))) :
    runLoop st (xs ++ ys) =
      ((runLoop (runLoop st xs).1 ys).1,
        (runLoop st xs).2 ++ (runLoop (runLoop st xs).1 ys).2) := by
  induction xs generalizing st with
  | nil => simp [runLoop]
  | cons f fs ih =>
    simp only [List.cons_append, runLoop_cons, ih, List.append_assoc]

theorem runLoop_replicate_none (k : Nat) (st : MonitorState)
    (h : st.errors + k < max_consecutive_errors) :
    runLoop st (List.replicate k none) = (⟨st.current, st.errors + k⟩, []) := by
  induction k generalizing st with
  | zero => simp [runLoop]
  | succ k ih =>
    rw [List.replicate_succ, runLoop_cons]
    have hfail : loopStep st none = (⟨st.current, st.errors + 1⟩, []) := by
      unfold loopStep loopStepFail
      rw [if_neg (by omega)]
    rw [hfail]
    have := ih ⟨st.current, st.errors + 1⟩ (by simp; omega)
    simp only [this]
    simp
    omega

end UpbitMonitor

namespace UpbitMonitor

theorem loopStep_none_eq (st : MonitorState) :
    loopStep st none = loopStepFail st := rfl

theorem loopStep_some_empty_eq (st : MonitorState) :
    loopStep st (some ∅) = loopStepFail st := by
  simp [loopStep]

theorem loopStepFail_below (st : MonitorState)
    (h : st.errors + 1 < max_consecutive_errors) :
    loopStepFail st = (⟨st.current, st.errors + 1⟩, []) := by
  unfold loopStepFail
  rw [if_neg (by omega)]

theorem loopStepFail_at_threshold (st : MonitorState)
    (h : max_consecutive_errors ≤ st.errors + 1) :
    loopStepFail st = (⟨st.current, 0⟩, [Msg.escalation (st.errors + 1)]) := by
  unfold loopStepFail
  rw [if_pos h]

theorem tryDeliverAux_fst (ok : Nat → Bool) (fuel i : Nat) :
    (tryDeliverAux ok i fuel).1 = true ↔
      ∃ j, j < fuel ∧ ok (i + j) = true := by
  induction fuel generalizing i with
  | zero => simp [tryDeliverAux]
  | succ fuel ih =>
    by_cases h : ok i = true
    · constructor
      · intro _
        exact ⟨0, by omega, by simpa using h⟩
      · intro _
        simp [tryDeliverAux, h]
    · simp only [tryDeliverAux, if_neg h]
      rw [ih]
      constructor
      · rintro ⟨j, hj, hok⟩
        refine ⟨j + 1, by omega, ?_⟩
        rw [(by omega : i + (j + 1) = i + 1 + j)]
        exact hok
      · rintro ⟨j, hj, hok⟩
        match j with
        | 0 => exact absurd (by simpa using hok) h
        | j + 1 =>
          refine ⟨j, by omega, ?_⟩
          rw [(by omega : i + 1 + j = i + (j + 1))]
          exact hok

theorem tryDeliverAux_pos (ok : Nat → Bool) (fuel i : Nat)
    (h : 1 ≤ fuel) : 1 ≤ (tryDeliverAux ok i fuel).2 := by
  match fuel with
  | fuel + 1 =>
    by_cases hok : ok i = true <;> simp [tryDeliverAux, hok]

theorem tryDeliverAux_first (ok : Nat → Bool) (fuel i k : Nat)
    (hk : k < fuel) (hok : ok (i + k) = true)
    (hmin : ∀ j, j < k → ok (i + j) = false) :
    tryDeliverAux ok i fuel = (true, k + 1) := by
  induction fuel generalizing i k with
  | zero => omega
  | succ fuel ih =>
    match k with
    | 0 =>
      simp only [tryDeliverAux, if_pos (by simpa using hok)]
    | k + 1 =>
      have h0 : ok i = false := by simpa using hmin 0 (by omega)
      have hrec := ih (i + 1) k (by omega)
        (by rw [(by omega : i + 1 + k = i + (k + 1))]; exact hok)
        (fun j hj => by
          rw [(by omega : i + 1 + j = i + (j + 1))]
          exact hmin (j + 1) (by omega))
      simp [tryDeliverAux, h0, hrec]

theorem send_msg_fst (ok : String → Nat → Bool) (recipients : List String)
    (retries : Nat) :
    (send_telegram_message ok recipients retries).1 = true ↔
      ∀ c ∈ recipients, ∃ i, i < retries ∧ ok c i = true := by
  induction recipients with
  | nil => simp [send_telegram_message]
  | cons c cs ih =>
    simp only [send_telegram_message, Bool.and_eq_true, ih, List.mem_cons]
    rw [show (tryDeliver (ok c) retries).1 = true ↔
          ∃ i, i < retries ∧ ok c i = true by
        simpa using tryDeliverAux_fst (ok c) retries 0]
    constructor
    · rintro ⟨h1, h2⟩ x hx
      rcases hx with rfl | hx
      · exact h1
      · exact h2 x hx
    · intro h
      exact ⟨h c (Or.inl rfl), fun x hx => h x (Or.inr hx)⟩

theorem send_msg_recipients (ok : String → Nat → Bool)
    (recipients : List String) (retries : Nat) :
    (send_telegram_message ok recipients retries).2.map Prod.fst =
      recipients := by
  induction recipients with
  | nil => rfl
  | cons c cs ih => simp [send_telegram_message, ih]

theorem send_msg_counts_pos (ok : String → Nat → Bool)
    (recipients : List String) (retries : Nat) (h : 1 ≤ retries) :
    ∀ p ∈ (send_telegram_message ok recipients retries).2, 1 ≤ p.2 := by
  induction recipients with
  | nil => simp [send_telegram_message]
  | cons c cs ih =>
    intro p hp
    simp only [send_telegram_message, List.mem_cons] at hp
    rcases hp with rfl | hp
    · exact tryDeliverAux_pos (ok c) retries 0 h
    · exact ih p hp

end UpbitMonitor

namespace UpbitMonitor

theorem waitAux_fail (fetch : Nat → Option (Finset String)) (fuel i : Nat)
    (h : ∀ k, k < fuel → truthy (fetch (i + k)) = false) :
    waitAux fetch i fuel = none := by
  induction fuel generalizing i with
  | zero => rfl
  | succ fuel ih =>
    have h0 : truthy (fetch i) = false := by simpa using h 0 (by omega)
    have hrec := ih (i + 1) (fun k hk => by
      rw [(by omega : i + 1 + k = i + (k + 1))]
      exact h (k + 1) (by omega))
    cases hf : fetch i with
    | none => simp only [waitAux, hf]; exact hrec
    | some s =>
      have hs : s = ∅ := by
        rw [hf] at h0
        simpa [truthy] using h0
      simp only [waitAux, hf, if_pos hs]
      exact hrec

theorem waitAux_first (fetch : Nat → Option (Finset String))
    (fuel i j : Nat) (s : Finset String) (hj : j < fuel)
    (hf : fetch (i + j) = some s) (hs : s ≠ ∅)
    (hmin : ∀ k, k < j → truthy (fetch (i + k)) = false) :
    waitAux fetch i fuel = some s := by
  induction fuel generalizing i j with
  | zero => omega
  | succ fuel ih =>
    match j with
    | 0 =>
      rw [Nat.add_zero] at hf
      simp only [waitAux, hf, if_neg hs]
    | j + 1 =>
      have h0 : truthy (fetch i) = false := by simpa using hmin 0 (by omega)
      have hrec := ih (i + 1) j (by omega)
        (by rw [(by omega : i + 1 + j = i + (j + 1))]; exact hf)
        (fun k hk => by
          rw [(by omega : i + 1 + k = i + (k + 1))]
          exact hmin (k + 1) (by omega))
      cases hfi : fetch i with
      | none => simp only [waitAux, hfi]; exact hrec
      | some t =>
        have ht : t = ∅ := by
          rw [hfi] at h0
          simpa [truthy] using h0
        simp only [waitAux, hfi, if_pos ht]
        exact hrec

theorem waitAux_empty_as_none (fetch : Nat → Option (Finset String))
    (fuel i : Nat) :
    waitAux (fun n => if fetch n = some ∅ then none else fetch n) i fuel =
      waitAux fetch i fuel := by
  induction fuel generalizing i with
  | zero => rfl
  | succ fuel ih =>
    by_cases he : fetch i = some ∅
    · simp [waitAux, he, ih (i + 1)]
    · cases hf : fetch i with
      | none => simp [waitAux, hf, ih (i + 1)]
      | some s =>
        have hs : s ≠ ∅ := by
          rintro rfl
          exact he hf
        simp [waitAux, hf, he, hs]

end UpbitMonitor

namespace UpbitMonitor

/-! ## Claim theorems -/

/-- C1: the monitor's current set is always the last successfully
fetched set.  An iteration whose fetch returns the failure marker leaves
`current_markets_set` unchanged, and over any finite trace of fetch
results the loop ends with the last truthy fetched set as its current
set (the starting set when no fetch in the trace succeeded) — so the
current set is only ever replaced by a successfully fetched set. -/
theorem C1_current_is_last_success (st : MonitorState)
    (fs : List (Option (Finset String))) :
    (loopStep st none).1.current = st.current ∧
    (runLoop st fs).1.current = (lastSuccess fs).getD st.current := by
  refine ⟨loopStepFail_current st, ?_⟩
  induction fs generalizing st with
  | nil => rfl
  | cons f fs ih =>
    rw [runLoop_cons]
    dsimp only
    rw [ih]
    cases hls : lastSuccess fs with
    | some s => simp [lastSuccess, hls]
    | none =>
      simp only [lastSuccess, hls]
      cases f with
      | none =>
        simp [loopStep_none_eq, loopStepFail_current]
      | some s =>
        by_cases hs : s = ∅
        · subst hs
          simp [loopStep_some_empty_eq, loopStepFail_current]
        · rw [loopStep_success_state st s hs]
          simp [hs]

/-- C4 (counterexample): at previous set `A = ∅` and fetched set
`B = {"KRW-BTC"}` the claimed identity `A ∪ removed = B ∪ added` fails
(`∅ ∪ ∅ = ∅` against `{"KRW-BTC"} ∪ {"KRW-BTC"} = {"KRW-BTC"}`), so the
conjunction of the claim is false there. -/
theorem C4_counterexample :
    ¬ (Disjoint (new_listings ∅ {"KRW-BTC"}) (delisted_pairs ∅ {"KRW-BTC"}) ∧
       (∅ : Finset String) ∪ delisted_pairs ∅ {"KRW-BTC"} =
         {"KRW-BTC"} ∪ new_listings ∅ {"KRW-BTC"}) := by
  intro h
  have h2 := h.2
  have hmem : ("KRW-BTC" : String) ∈
      (∅ : Finset String) ∪ delisted_pairs ∅ {"KRW-BTC"} := by
    rw [h2]
    decide
  revert hmem
  decide

/-- C4 (amended): `added = B − A` and `removed = A − B` are disjoint,
and `A ∪ added = B ∪ removed` (both sides are `A ∪ B`). -/
theorem C4_diff_disjoint_union (A B : Finset String) :
    Disjoint (new_listings A B) (delisted_pairs A B) ∧
    A ∪ new_listings A B = B ∪ delisted_pairs A B := by
  constructor
  · exact disjoint_sdiff_sdiff
  · show A ∪ B \ A = B ∪ A \ B
    rw [Finset.union_sdiff_self_eq_union, Finset.union_sdiff_self_eq_union,
      Finset.union_comm]

/-- C5: in an iteration whose truthy fetched set equals the current set
no message is dispatched and the current set is unchanged; whenever the
fetched set differs from the current set (full-set equality, so this
includes net-zero changes) the current set becomes the fetched set by
the end of the iteration. -/
theorem C5_equal_sets_frame (st : MonitorState) (s : Finset String)
    (h : s ≠ ∅) :
    (s = st.current →
      (loopStep st (some s)).1.current = st.current ∧
      (loopStep st (some s)).2 = []) ∧
    (s ≠ st.current → (loopStep st (some s)).1.current = s) := by
  constructor
  · intro hc
    simp only [loopStep]
    rw [if_neg h]
    unfold loopStepOk
    rw [if_neg (fun hn => hn hc)]
    exact ⟨rfl, rfl⟩
  · intro _
    rw [loopStep_success_state st s h]

/-- Witness for C5 at `current = fetched = {"KRW-BTC"}`. -/
theorem C5_witness :
    ({"KRW-BTC"} : Finset String) ≠ ∅ ∧
    ((loopStep ⟨{"KRW-BTC"}, 2⟩ (some {"KRW-BTC"})).1.current = {"KRW-BTC"} ∧
      (loopStep ⟨{"KRW-BTC"}, 2⟩ (some {"KRW-BTC"})).2 = []) :=
  ⟨by decide,
    (C5_equal_sets_frame ⟨{"KRW-BTC"}, 2⟩ {"KRW-BTC"} (by decide)).1 rfl⟩

end UpbitMonitor

namespace UpbitMonitor

theorem listingMsgs_no_escalation (added : Finset String) (n : Nat) :
    Msg.escalation n ∉ listingMsgs added := by
  unfold listingMsgs
  split
  · simp
  · split <;> simp

/-- C2: starting from a zero error counter, a run of `k < 10`
consecutive fetch failures dispatches no escalation alert and leaves the
counter at `k`; at exactly `k = 10` the run dispatches exactly one
escalation alert and resets the counter to 0; and the first success
(truthy fetch) after a non-empty failure run resets the counter to 0
without dispatching any escalation alert. -/
theorem C2_escalation_threshold :
    (∀ st : MonitorState, st.errors = 0 →
      (∀ k, k < max_consecutive_errors →
        runLoop st (List.replicate k none) = (⟨st.current, k⟩, [])) ∧
      runLoop st (List.replicate max_consecutive_errors none) =
        (⟨st.current, 0⟩, [Msg.escalation max_consecutive_errors])) ∧
    (∀ (st : MonitorState) (s : Finset String), 0 < st.errors → s ≠ ∅ →
      (loopStep st (some s)).1.errors = 0 ∧
      ∀ n, Msg.escalation n ∉ (loopStep st (some s)).2) := by
  constructor
  · intro st h0
    constructor
    · intro k hk
      have h := runLoop_replicate_none k st
        (by rw [h0]; simpa using hk)
      rw [h0] at h
      simpa using h
    · have h9 : runLoop st (List.replicate 9 none) =
          (⟨st.current, 9⟩, []) := by
        have h := runLoop_replicate_none 9 st (by rw [h0]; decide)
        rw [h0] at h
        simpa using h
      have hlast : runLoop ⟨st.current, 9⟩ (List.replicate 1 none) =
          (⟨st.current, 0⟩, [Msg.escalation 10]) := by
        simp [runLoop, loopStep, loopStepFail, max_consecutive_errors,
          List.replicate]
      have hsplit : List.replicate max_consecutive_errors
          (none : Option (Finset String)) =
          List.replicate 9 none ++ List.replicate 1 none := by
        rw [← List.replicate_add]
        norm_num [max_consecutive_errors]
      rw [hsplit, runLoop_append, h9]
      dsimp only
      rw [hlast]
      simp [max_consecutive_errors]
  · intro st s _ hs
    constructor
    · rw [loopStep_success_state st s hs]
    · intro n
      simp only [loopStep]
      rw [if_neg hs]
      unfold loopStepOk
      split
      · dsimp only
        exact listingMsgs_no_escalation _ n
      · simp

/-- Witness for C2: starting set `{"KRW-BTC"}`, 9 failures then the
threshold run, and a success after 4 failures. -/
theorem C2_witness :
    ((⟨{"KRW-BTC"}, 0⟩ : MonitorState).errors = 0 ∧
      runLoop ⟨{"KRW-BTC"}, 0⟩ (List.replicate 9 none) =
        (⟨{"KRW-BTC"}, 9⟩, []) ∧
      runLoop ⟨{"KRW-BTC"}, 0⟩
          (List.replicate max_consecutive_errors none) =
        (⟨{"KRW-BTC"}, 0⟩, [Msg.escalation max_consecutive_errors])) ∧
    (0 < (⟨{"KRW-BTC"}, 4⟩ : MonitorState).errors ∧
      (loopStep ⟨{"KRW-BTC"}, 4⟩ (some {"KRW-BTC"})).1.errors = 0) := by
  refine ⟨⟨rfl, ?_, ?_⟩, by decide, ?_⟩
  · exact (C2_escalation_threshold.1 ⟨{"KRW-BTC"}, 0⟩ rfl).1 9 (by decide)
  · exact (C2_escalation_threshold.1 ⟨{"KRW-BTC"}, 0⟩ rfl).2
  · exact (C2_escalation_threshold.2 ⟨{"KRW-BTC"}, 4⟩ {"KRW-BTC"}
      (by decide) (by decide)).1

/-- C6: in an iteration with a truthy fetched set that differs from the
current set, exactly one single-pair message naming the unique added
ticker is dispatched when one ticker was added; exactly one batched
message listing all added tickers in sorted order is dispatched when
more than one was added; and when nothing was added (a pure removal,
logged only) no message is dispatched. -/
theorem C6_listing_notifications (st : MonitorState) (s : Finset String)
    (hs : s ≠ ∅) (hne : s ≠ st.current) :
    ((new_listings st.current s).card = 1 →
      ∃ t, new_listings st.current s = {t} ∧
        (loopStep st (some s)).2 = [Msg.newSingle t]) ∧
    (1 < (new_listings st.current s).card →
      (loopStep st (some s)).2 =
        [Msg.newBatch ((new_listings st.current s).sort (· ≤ ·))]) ∧
    (new_listings st.current s = ∅ → (loopStep st (some s)).2 = []) := by
  have hmsgs : (loopStep st (some s)).2 =
      listingMsgs (new_listings st.current s) := by
    simp only [loopStep]
    rw [if_neg hs]
    unfold loopStepOk
    rw [if_pos hne]
  refine ⟨?_, ?_, ?_⟩
  · intro h1
    obtain ⟨t, ht⟩ := Finset.card_eq_one.mp h1
    refine ⟨t, ht, ?_⟩
    rw [hmsgs, ht]
    unfold listingMsgs
    rw [if_neg (Finset.singleton_ne_empty t), if_pos (Finset.card_singleton t),
      Finset.sort_singleton]
    rfl
  · intro hgt
    rw [hmsgs]
    unfold listingMsgs
    rw [if_neg (by intro h; rw [h] at hgt; simp at hgt),
      if_neg (by omega)]
  · intro h0
    rw [hmsgs, h0]
    unfold listingMsgs
    rw [if_pos rfl]

/-- Witness for C6: current `{"KRW-BTC"}`, fetched
`{"KRW-BTC","KRW-XRP"}`, so exactly `KRW-XRP` was added. -/
theorem C6_witness :
    (({"KRW-BTC", "KRW-XRP"} : Finset String) ≠ ∅ ∧
      ({"KRW-BTC", "KRW-XRP"} : Finset String) ≠ {"KRW-BTC"} ∧
      (new_listings {"KRW-BTC"} {"KRW-BTC", "KRW-XRP"}).card = 1) ∧
    (∃ t, new_listings {"KRW-BTC"} {"KRW-BTC", "KRW-XRP"} = {t} ∧
      (loopStep ⟨{"KRW-BTC"}, 0⟩ (some {"KRW-BTC", "KRW-XRP"})).2 =
        [Msg.newSingle t]) :=
  ⟨⟨by decide, by decide, by decide⟩,
    (C6_listing_notifications ⟨{"KRW-BTC"}, 0⟩ {"KRW-BTC", "KRW-XRP"}
      (by decide) (by decide)).1 (by decide)⟩

end UpbitMonitor

namespace UpbitMonitor

/-- C3: the dispatcher returns true iff every recipient had at least one
successful delivery attempt within its retry budget; every recipient is
attempted (in list order) regardless of earlier failures, each at least
once when the budget is positive; and retrying a recipient stops at its
first successful attempt. -/
theorem C3_dispatch_all_or_nothing (ok : String → Nat → Bool)
    (recipients : List String) (retries : Nat) :
    ((send_telegram_message ok recipients retries).1 = true ↔
      ∀ c ∈ recipients, ∃ i, i < retries ∧ ok c i = true) ∧
    ((send_telegram_message ok recipients retries).2.map Prod.fst =
      recipients) ∧
    (1 ≤ retries →
      ∀ p ∈ (send_telegram_message ok recipients retries).2, 1 ≤ p.2) ∧
    (∀ c k, k < retries → ok c k = true →
      (∀ j, j < k → ok c j = false) →
      tryDeliver (ok c) retries = (true, k + 1)) :=
  ⟨send_msg_fst ok recipients retries,
    send_msg_recipients ok recipients retries,
    fun h => send_msg_counts_pos ok recipients retries h,
    fun c k hk hok hmin =>
      tryDeliverAux_first (ok c) retries 0 k hk (by simpa using hok)
        (fun j hj => by simpa using hmin j hj)⟩

/-- Witness for C3: recipients `["a", "b"]`, three retries, `"a"`
succeeding on its second attempt and `"b"` never. -/
theorem C3_witness :
    (1 ≤ 3 ∧
      ∀ p ∈ (send_telegram_message (fun c i => c == "a" && i == 1)
        ["a", "b"] 3).2, 1 ≤ p.2) ∧
    (1 < 3 ∧
      tryDeliver ((fun (c : String) (i : Nat) => c == "a" && i == 1) "a")
        3 = (true, 2)) := by
  refine ⟨⟨by decide, ?_⟩, by decide, ?_⟩
  · exact (C3_dispatch_all_or_nothing (fun c i => c == "a" && i == 1)
      ["a", "b"] 3).2.2.1 (by decide)
  · exact (C3_dispatch_all_or_nothing (fun c i => c == "a" && i == 1)
      ["a", "b"] 3).2.2.2 "a" 1 (by decide) (by decide)
      (fun j hj => by
        have hj0 : j = 0 := by omega
        subst hj0
        decide)

/-- C7: when every bootstrapping fetch attempt (bounded by
`MAX_RETRIES = 3`) fails, the monitor never enters the Running loop and
dispatches exactly one startup-failure alert; on the first truthy
attempt it enters Running with that fetched set as its current set and
dispatches exactly the startup notification. -/
theorem C7_bootstrap (fetch : Nat → Option (Finset String)) :
    ((∀ i, i < MAX_RETRIES → fetch i = none) →
      bootstrap fetch = (none, [Msg.startupFailure])) ∧
    (∀ j s, j < MAX_RETRIES → fetch j = some s → s ≠ ∅ →
      (∀ i, i < j → truthy (fetch i) = false) →
      bootstrap fetch = (some s, [Msg.startupOk s.card])) := by
  constructor
  · intro h
    have hw : wait_for_initial_markets fetch = none := by
      unfold wait_for_initial_markets
      exact waitAux_fail fetch MAX_RETRIES 0 (fun k hk => by
        rw [Nat.zero_add, h k hk]
        rfl)
    unfold bootstrap
    rw [hw]
  · intro j s hj hf hs hmin
    have hw : wait_for_initial_markets fetch = some s := by
      unfold wait_for_initial_markets
      exact waitAux_first fetch MAX_RETRIES 0 j s hj
        (by rw [Nat.zero_add]; exact hf) hs
        (fun k hk => by rw [Nat.zero_add]; exact hmin k hk)
    have hb : bootstrap fetch =
        if s = ∅ then (none, [Msg.startupFailure])
        else (some s, [Msg.startupOk s.card]) := by
      unfold bootstrap
      rw [hw]
    rw [hb, if_neg hs]

/-- Witness for C7: all-failing fetches, and fetches succeeding on the
second attempt with `{"KRW-BTC"}`. -/
theorem C7_witness :
    ((∀ i, i < MAX_RETRIES →
        (fun _ => (none : Option (Finset String))) i = none) ∧
      bootstrap (fun _ => none) = (none, [Msg.startupFailure])) ∧
    (1 < MAX_RETRIES ∧
      bootstrap (fun i => if i = 1 then some {"KRW-BTC"} else none) =
        (some {"KRW-BTC"},
          [Msg.startupOk ({"KRW-BTC"} : Finset String).card])) := by
  refine ⟨⟨fun i _ => rfl, ?_⟩, by decide, ?_⟩
  · exact (C7_bootstrap (fun _ => none)).1 (fun i _ => rfl)
  · exact (C7_bootstrap (fun i => if i = 1 then some {"KRW-BTC"} else none)).2
      1 {"KRW-BTC"} (by decide) (by decide) (by decide)
      (fun i hi => by
        have hi0 : i = 0 := by omega
        subst hi0
        rfl)

/-- C10: an empty-but-successful fetch is treated at every call site
exactly like a fetch failure (Python truthiness): in the Running loop an
iteration on `some ∅` equals the iteration on the failure marker — so
it increments the consecutive-failure counter and leaves the current set
unchanged — and in bootstrapping, replacing every empty-set result by
the failure marker does not change the outcome. -/
theorem C10_empty_is_failure :
    (∀ st : MonitorState, loopStep st (some ∅) = loopStep st none) ∧
    (∀ st : MonitorState, (loopStep st (some ∅)).1.current = st.current) ∧
    (∀ st : MonitorState, st.errors + 1 < max_consecutive_errors →
      (loopStep st (some ∅)).1.errors = st.errors + 1) ∧
    (∀ fetch : Nat → Option (Finset String),
      wait_for_initial_markets
        (fun n => if fetch n = some ∅ then none else fetch n) =
      wait_for_initial_markets fetch) := by
  refine ⟨?_, ?_, ?_, ?_⟩
  · intro st
    rw [loopStep_some_empty_eq, loopStep_none_eq]
  · intro st
    rw [loopStep_some_empty_eq]
    exact loopStepFail_current st
  · intro st h
    rw [loopStep_some_empty_eq, loopStepFail_below st h]
  · intro fetch
    unfold wait_for_initial_markets
    exact waitAux_empty_as_none fetch MAX_RETRIES 0

/-- Witness for C10 at state `⟨{"KRW-BTC"}, 0⟩`. -/
theorem C10_witness :
    (⟨{"KRW-BTC"}, 0⟩ : MonitorState).errors + 1 < max_consecutive_errors ∧
    (loopStep ⟨{"KRW-BTC"}, 0⟩ (some ∅)).1.errors =
      (⟨{"KRW-BTC"}, 0⟩ : MonitorState).errors + 1 :=
  ⟨by decide, C10_empty_is_failure.2.2.1 ⟨{"KRW-BTC"}, 0⟩ (by decide)⟩

end UpbitMonitor

namespace UpbitMonitor

/-- C8 (counterexample): with valid configuration, a successful
bootstrap, and an unexpected crash `"boom"` escaping the loop body, the
process exit status is 0 — the `except Exception` handler swallows the
error — contradicting the claimed non-zero exit for crashes. -/
theorem C8_counterexample :
    (processRun (some "token") (some "1") (fun _ => some {"KRW-BTC"}) []
      (LoopEnd.crashed "boom")).exitCode = 0 := by
  decide

/-- C8 (amended): a fatal configuration error (missing token or
recipient list) exits with status 1 before the loop starts; a normal
interrupt exits 0 after cleanup; an unexpected crash escaping the loop
body also exits 0 — not non-zero — after cleanup and a best-effort
truncated alert, because the exception handler swallows the error. -/
theorem C8_exit_status (token chatIdString : Option String)
    (fetch : Nat → Option (Finset String))
    (fs : List (Option (Finset String))) (e : String) (s : Finset String)
    (lend : LoopEnd) :
    ((truthyStr token = false ∨ truthyStr chatIdString = false) →
      processRun token chatIdString fetch fs lend = ⟨[], 0, 1⟩) ∧
    (configExit token chatIdString = none →
      (processRun token chatIdString fetch fs
          LoopEnd.interrupted).exitCode = 0 ∧
      (processRun token chatIdString fetch fs
          (LoopEnd.crashed e)).exitCode = 0) ∧
    (configExit token chatIdString = none →
      (bootstrap fetch).1 = some s →
      (processRun token chatIdString fetch fs
          (LoopEnd.crashed e)).sessionCloses = 1 ∧
      Msg.crashAlert (truncate200 e) ∈
        (processRun token chatIdString fetch fs
          (LoopEnd.crashed e)).msgs) := by
  refine ⟨?_, ?_, ?_⟩
  · intro h
    have hc : configExit token chatIdString = some 1 := by
      rcases h with h | h <;> simp [configExit, h]
    simp [processRun, hc]
  · intro hc
    constructor <;> simp [processRun, hc]
  · intro hc hbs
    rcases hbe : bootstrap fetch with ⟨b1, b2⟩
    rw [hbe] at hbs
    dsimp only at hbs
    subst hbs
    constructor <;>
      simp [processRun, hc, monitor_upbit_listings, hbe]

/-- Witness for C8: a missing token, and a crash after a clean start. -/
theorem C8_witness :
    (truthyStr none = false ∨ truthyStr (some "1") = false) ∧
    processRun none (some "1") (fun _ => some {"KRW-BTC"}) []
      LoopEnd.interrupted = ⟨[], 0, 1⟩ ∧
    (processRun (some "token") (some "1") (fun _ => some {"KRW-BTC"}) []
      (LoopEnd.crashed "x")).exitCode = 0 ∧
    Msg.crashAlert (truncate200 "x") ∈
      (processRun (some "token") (some "1") (fun _ => some {"KRW-BTC"}) []
        (LoopEnd.crashed "x")).msgs := by
  refine ⟨Or.inl rfl, ?_, ?_, ?_⟩
  · exact (C8_exit_status none (some "1") (fun _ => some {"KRW-BTC"}) []
      "x" {"KRW-BTC"} LoopEnd.interrupted).1 (Or.inl rfl)
  · exact ((C8_exit_status (some "token") (some "1")
      (fun _ => some {"KRW-BTC"}) [] "x" {"KRW-BTC"}
      LoopEnd.interrupted).2.1 (by decide)).2
  · exact ((C8_exit_status (some "token") (some "1")
      (fun _ => some {"KRW-BTC"}) [] "x" {"KRW-BTC"}
      LoopEnd.interrupted).2.2 (by decide) (by decide)).2

/-- C9 (counterexample): on the bootstrapping-failure exit path (every
initial fetch attempt fails) the monitor returns at line 169, before the
`try/finally` of lines 181-252, so the session is closed zero times —
not exactly once as claimed. -/
theorem C9_counterexample :
    (monitor_upbit_listings (fun _ => none) [] LoopEnd.interrupted).2
      = 0 := by
  decide

/-- C9 (amended): the session is closed exactly once on the normal
interrupt and unexpected crash exit paths (whenever the loop was
entered), but zero times on the bootstrapping-failure exit path. -/
theorem C9_session_close (fetch : Nat → Option (Finset String))
    (fs : List (Option (Finset String))) (e : String)
    (s : Finset String) :
    ((bootstrap fetch).1 = some s →
      (monitor_upbit_listings fetch fs LoopEnd.interrupted).2 = 1 ∧
      (monitor_upbit_listings fetch fs (LoopEnd.crashed e)).2 = 1) ∧
    ((bootstrap fetch).1 = none →
      ∀ lend, (monitor_upbit_listings fetch fs lend).2 = 0) := by
  constructor
  · intro hb
    rcases hbe : bootstrap fetch with ⟨b1, b2⟩
    rw [hbe] at hb
    dsimp only at hb
    subst hb
    constructor <;> simp [monitor_upbit_listings, hbe]
  · intro hb lend
    rcases hbe : bootstrap fetch with ⟨b1, b2⟩
    rw [hbe] at hb
    dsimp only at hb
    subst hb
    simp [monitor_upbit_listings, hbe]

/-- Witness for C9: a bootstrap that succeeds with `{"KRW-BTC"}` and one
that never succeeds. -/
theorem C9_witness :
    ((bootstrap (fun _ => some {"KRW-BTC"})).1 = some {"KRW-BTC"} ∧
      (monitor_upbit_listings (fun _ => some {"KRW-BTC"}) []
        (LoopEnd.crashed "x")).2 = 1) ∧
    ((bootstrap (fun _ => none)).1 = none ∧
      (monitor_upbit_listings (fun _ => none) []
        (LoopEnd.crashed "x")).2 = 0) := by
  refine ⟨⟨by decide, ?_⟩, by decide, ?_⟩
  · exact ((C9_session_close (fun _ => some {"KRW-BTC"}) [] "x"
      {"KRW-BTC"}).1 (by decide)).2
  · exact (C9_session_close (fun _ => none) [] "x" ∅).2 (by decide)
      (LoopEnd.crashed "x")

end UpbitMonitor
